import Mathlib

/-!
Verification development for the Casos de Éxito map application (app.py).

The application state and its operations are shallowly embedded here:
Python strings become `List Char` (so that trimming and character tests can
be reasoned about directly), spreadsheet cell values become `Value`
(a string or a number; gspread delivers strings, while rows written by the
app hold numbers in the coordinate columns), Python floats are modelled as
exact rationals, dictionaries keyed by layer name become insertion-ordered
association lists, and a Python exception escaping a helper is modelled by
an `Option` result of `none` (the surrounding handler catches it, so the
session store keeps its previous value).  The uuid-derived fresh-id tokens
are nondeterministic in the source; they are modelled by an explicit
fresh-id supply passed as an argument, which no property below depends on.
-/

/-- Python strings, modelled as lists of characters. -/
abbrev Chars := List Char

/-- Whitespace recognised by Python str.strip (ASCII part). -/
def isWsChar (c : Char) : Bool :=
  c = ' ' || c = '\t' || c = '\n' || c = '\r' || c = '\x0b' || c = '\x0c'

/-- Python str.strip: drop whitespace from both ends. -/
def trimChars (l : Chars) : Chars :=
  ((l.dropWhile isWsChar).reverse.dropWhile isWsChar).reverse

/-- One hexadecimal digit, as in the character class of the regex in _hex_ok. -/
def isHexDigitChar (c : Char) : Bool :=
  ('0' ≤ c && c ≤ '9') || ('a' ≤ c && c ≤ 'f') || ('A' ≤ c && c ≤ 'F')

/-- Exactly six hexadecimal digits. -/
def isHex6 (l : Chars) : Bool :=
  l.length == 6 && l.all isHexDigitChar

/-- The fixed fallback color "#1f77b4" used throughout app.py. -/
def FALLBACK : Chars := "#1f77b4".toList

/-- app.py _hex_ok: fullmatch of the regex "#?[0-9a-fA-F]\x7b6\x7d" against the
stripped candidate. -/
def _hex_ok (h : Chars) : Bool :=
  let t := trimChars h
  isHex6 t || (t.head? == some '#' && isHex6 t.tail)

/-- app.py _clean_hex: default an empty (falsy) candidate, strip it, ensure a
leading hash, and fall back to "#1f77b4" unless _hex_ok accepts the result. -/
def _clean_hex (h : Chars) : Chars :=
  let h1 := trimChars (if h.isEmpty then FALLBACK else h)
  let h2 := if h1.head? == some '#' then h1 else '#' :: h1
  if _hex_ok h2 then h2 else FALLBACK

/-- Canonical color shape: a hash followed by exactly six hex digits. -/
def isColorCanon (l : Chars) : Bool :=
  l.head? == some '#' && isHex6 l.tail

/-- Drop one leading hash if present (the "after stripping a leading hash"
wording of the specification). -/
def stripHash (l : Chars) : Chars :=
  if l.head? == some '#' then l.tail else l

/-- A spreadsheet cell: a string or a number (Python floats are modelled as
exact rationals). -/
inductive Value where
  | vStr : Chars → Value
  | vNum : ℚ → Value
deriving DecidableEq

/-- Python truthiness for cell values: empty string and zero are falsy. -/
def Value.truthy : Value → Bool
  | .vStr s => !s.isEmpty
  | .vNum q => if q = 0 then false else true

/-- Value of a digit string read in base 10. -/
def natFromDigits (l : Chars) : ℕ :=
  l.foldl (fun a c => a * 10 + (c.toNat - 48)) 0

/-- Unsigned part of a Python float literal: digits with at most one dot. -/
def parseUnsigned (s : Chars) : Option ℚ :=
  let intPart := s.takeWhile (fun c => c ≠ '.')
  let rest := s.dropWhile (fun c => c ≠ '.')
  match rest with
  | [] =>
      if intPart ≠ [] ∧ intPart.all Char.isDigit then some (natFromDigits intPart)
      else none
  | '.' :: frac =>
      if intPart.all Char.isDigit ∧ frac.all Char.isDigit ∧ (intPart ≠ [] ∨ frac ≠ []) then
        some ((natFromDigits intPart : ℚ) + (natFromDigits frac : ℚ) / ((10 : ℚ) ^ frac.length))
      else none
  | _ => none

/-- Python float(...) applied to a string: strip, optional sign, then an
unsigned decimal literal; any other shape raises, modelled as none. -/
def parseFloatChars (s : Chars) : Option ℚ :=
  match trimChars s with
  | '+' :: rest => parseUnsigned rest
  | '-' :: rest => (parseUnsigned rest).map Neg.neg
  | rest => parseUnsigned rest

/-- Python float(...) applied to a cell value. -/
def pyFloat : Value → Option ℚ
  | .vNum q => some q
  | .vStr s => parseFloatChars s

/-- Decimal digits of a natural number. -/
def natToDigits (n : ℕ) : Chars :=
  Nat.toDigits 10 n

/-- Rendering of a numeric cell by Python str(...).  The exact float
formatting of CPython is abstracted to a concrete injective rendering;
no property below depends on the rendered text. -/
def ratToChars (q : ℚ) : Chars :=
  (if q < 0 then ['-'] else []) ++ natToDigits q.num.natAbs ++ ('/' :: natToDigits q.den)

/-- Python str(x or "") as used for the text columns in app_from_rows. -/
def str_or_empty : Value → Chars
  | .vStr s => s
  | .vNum q => if q = 0 then [] else ratToChars q

/-- app.py line 549: _clean_hex(color or "#1f77b4") applied to a raw cell.
A truthy numeric cell reaches the .strip() call inside _clean_hex and raises
AttributeError, modelled as none. -/
def clean_hex_cell : Value → Option Chars
  | .vStr s => some (_clean_hex (if s.isEmpty then FALLBACK else s))
  | .vNum q => if q = 0 then some (_clean_hex FALLBACK) else none

/-- The property bag of a Feature.  The id and layer fields keep the raw cell
value they were built from (app_from_rows stores them without str coercion);
all other fields are strings. -/
structure Props where
  id : Value
  layer : Value
  color : Chars
  titulo : Chars
  desc : Chars
  fecha : Chars
  provincia : Chars
  canton : Chars
  responsable : Chars
  impacto : Chars
  enlace : Chars
deriving DecidableEq

/-- The geometry member of a Feature: a type tag (always "Point" here) and
the coordinate array, first component longitude, second latitude. -/
structure Geometry where
  gtype : Chars
  coordinates : ℚ × ℚ
deriving DecidableEq

/-- One GeoJSON Feature as built by the application. -/
structure Feature where
  ftype : Chars
  properties : Props
  geometry : Geometry
deriving DecidableEq

/-- One layer record: display color, visibility flag, feature list. -/
structure Layer where
  color : Chars
  visible : Bool
  features : List Feature
deriving DecidableEq

/-- The Layer Store: st.session_state.layers, a Python dict from layer name
to layer record, modelled as an insertion-ordered association list. -/
abbrev LayerMap := List (Value × Layer)

/-- Python dict lookup (layers[name]); none models KeyError. -/
def lookupKey : LayerMap → Value → Option Layer
  | [], _ => none
  | (k1, l) :: rest, k => if k1 = k then some l else lookupKey rest k

/-- Python dict assignment layers[name] = v: replace in place when the key is
present, append at the end otherwise (dict insertion order). -/
def setKey : LayerMap → Value → Layer → LayerMap
  | [], k, v => [(k, v)]
  | (k1, l) :: rest, k, v =>
      if k1 = k then (k, v) :: rest else (k1, l) :: setKey rest k v

/-- app.py all_features_fc: concatenate every layer's feature list in store
iteration order (the features member of the returned FeatureCollection). -/
def all_features_fc (m : LayerMap) : List Feature :=
  m.foldl (fun feats kv => feats ++ kv.2.features) []

/-- app.py _build_feature: stamp a generated id when the given props lack a
truthy one, wrap with a Point geometry at [lon, lat].  The uuid token is
passed in as builderId. -/
def _build_feature (builderId : Chars) (lon lat : ℚ) (props : Props) : Feature :=
  { ftype := "Feature".toList
    properties := if props.id.truthy then props else { props with id := .vStr builderId }
    geometry := { gtype := "Point".toList, coordinates := (lon, lat) } }

/-- The fixed 13-column header row of the external table. -/
def HEADER : List Value :=
  ["id", "layer", "color", "titulo", "desc", "fecha", "provincia", "canton",
   "responsable", "impacto", "enlace", "lat", "lon"].map (fun s => Value.vStr s.toList)

/-- One exported row of rows_from_app: id and layer as stored, text columns
as strings, then latitude and longitude as numbers. -/
def feature_row (f : Feature) : List Value :=
  [f.properties.id, f.properties.layer, .vStr f.properties.color,
   .vStr f.properties.titulo, .vStr f.properties.desc, .vStr f.properties.fecha,
   .vStr f.properties.provincia, .vStr f.properties.canton,
   .vStr f.properties.responsable, .vStr f.properties.impacto,
   .vStr f.properties.enlace, .vNum f.geometry.coordinates.2,
   .vNum f.geometry.coordinates.1]

/-- app.py rows_from_app: the header row followed by one row per feature of
the flattened store. -/
def rows_from_app (m : LayerMap) : List (List Value) :=
  HEADER :: (all_features_fc m).map feature_row

/-- Multiset of the id column over the data rows of a table (the features of
a row set, identified by id). -/
def sheet_ids (rows : List (List Value)) : Multiset Value :=
  ((rows.drop 1).filterMap List.head? : List Value)

/-- Multiset of the ids of all features in the store. -/
def storeIds (m : LayerMap) : Multiset Value :=
  ((all_features_fc m).map (fun f => f.properties.id) : List Value)

/-- The per-row body of the app_from_rows loop, for a row that passed the
length guard: unpack the 13 cells (a longer row raises ValueError), clean the
color (a truthy numeric color cell raises), build the feature with
float(lon), float(lat) coordinates (an unparseable cell raises).
Returns the layer key cell, the feature, and the advanced fresh-id counter. -/
def row_feature (gen : ℕ → Chars) (n : ℕ) (r : List Value) :
    Option (Value × Feature × ℕ) :=
  match r with
  | [i, lay, col, tit, des, fec, pro, can, res, imp, enl, la, lo] =>
      match clean_hex_cell col with
      | none => none
      | some color =>
          match pyFloat lo, pyFloat la with
          | some lonq, some latq =>
              let idn : Value × ℕ := if i.truthy then (i, n) else (.vStr (gen n), n + 1)
              some (lay,
                { ftype := "Feature".toList
                  properties :=
                    { id := idn.1, layer := lay, color := color
                      titulo := str_or_empty tit, desc := str_or_empty des
                      fecha := str_or_empty fec, provincia := str_or_empty pro
                      canton := str_or_empty can, responsable := str_or_empty res
                      impacto := str_or_empty imp, enlace := str_or_empty enl }
                  geometry := { gtype := "Point".toList, coordinates := (lonq, latq) } },
                idn.2)
          | _, _ => none
  | _ => none

/-- layers[layer].features.append(feat), creating the layer on first
encounter with the row's color and visible set to true. -/
def insert_feature : LayerMap → Value → Feature → LayerMap
  | [], k, f => [(k, { color := f.properties.color, visible := true, features := [f] })]
  | (k1, l) :: rest, k, f =>
      if k1 = k then (k1, { l with features := l.features ++ [f] }) :: rest
      else (k1, l) :: insert_feature rest k f

/-- The loop of app_from_rows over the data rows: a row shorter than 13 cells
(including an empty row) is skipped; any exception from a processed row
aborts the whole call (none), discarding the accumulator. -/
def app_from_rows_loop (gen : ℕ → Chars) :
    List (List Value) → ℕ → LayerMap → Option LayerMap
  | [], _, acc => some acc
  | r :: rest, n, acc =>
      if r.length < 13 then app_from_rows_loop gen rest n acc
      else
        match row_feature gen n r with
        | none => none
        | some (lay, f, n2) => app_from_rows_loop gen rest n2 (insert_feature acc lay f)

/-- app.py app_from_rows: rebuild a layer mapping from the data rows; the
session store is assigned only after the loop finishes, so none means the
store keeps its previous value. -/
def app_from_rows (gen : ℕ → Chars) (values : List (List Value)) : Option LayerMap :=
  app_from_rows_loop gen (values.drop 1) 0 []

/-- The load-from-sheets button handler: when the table has more than the
header row, run app_from_rows and install its result; otherwise, or when the
rebuild raises (caught by the surrounding handler), keep the current store. -/
def load_sheets (gen : ℕ → Chars) (m : LayerMap) (values : List (List Value)) : LayerMap :=
  if 1 < values.length then
    match app_from_rows gen values with
    | some m2 => m2
    | none => m
  else m

/-- A data row the rebuild fully accepts: 13 cells, truthy id, color cell
that _clean_hex accepts without raising, parseable latitude and longitude. -/
def rowWF (r : List Value) : Bool :=
  match r with
  | [i, _, col, _, _, _, _, _, _, _, _, la, lo] =>
      i.truthy && (clean_hex_cell col).isSome && (pyFloat la).isSome && (pyFloat lo).isSome
  | _ => false

/-- The well-formedness the round-trip claim itself states: 13 columns and a
non-empty (truthy) id. -/
def rowWF_claim (r : List Value) : Bool :=
  r.length == 13 &&
    (match r.head? with
     | some v => v.truthy
     | none => false)

/-- Python list.pop(i): a negative index counts from the end; an index still
out of range after that adjustment raises IndexError (none) and the list is
untouched.  Returns the removed element and the remaining list. -/
def list_pop (l : List Feature) (i : ℤ) : Option (Feature × List Feature) :=
  if h : 0 ≤ (if i < 0 then i + l.length else i) ∧
         (if i < 0 then i + l.length else i) < (l.length : ℤ) then
    some (l.get ⟨(if i < 0 then i + l.length else i).toNat, by omega⟩,
          l.eraseIdx (if i < 0 then i + l.length else i).toNat)
  else none

/-- The delete button handler (app.py line 398):
st.session_state.layers[lname]["features"].pop(int(idx_del)).
none models an uncaught KeyError or IndexError. -/
def btn_del (m : LayerMap) (k : Value) (i : ℤ) : Option LayerMap :=
  match lookupKey m k with
  | none => none
  | some lay =>
      match list_pop lay.features i with
      | none => none
      | some (_, fs) => some (setKey m k { lay with features := fs })

/-- The session store after the delete handler runs: an exception leaves the
store as it was (pop raises before any mutation). -/
def btn_del_state (m : LayerMap) (k : Value) (i : ℤ) : LayerMap :=
  (btn_del m k i).getD m

/-- The edit form submit handler (app.py lines 403 and 423-425):
p.update with the stripped form fields.  The description is stored with no
length truncation on this path. -/
def edit_submit (m : LayerMap) (k : Value) (i : ℕ)
    (t fe resp prov cant imp enl des : Chars) : Option LayerMap :=
  match lookupKey m k with
  | none => none
  | some lay =>
      match lay.features[i]? with
      | none => none
      | some f =>
          let p := f.properties
          let p2 : Props :=
            { p with
              titulo := trimChars t
              fecha := fe
              responsable := resp
              provincia := trimChars prov
              canton := trimChars cant
              impacto := trimChars imp
              enlace := trimChars enl
              desc := trimChars des }
          some (setKey m k { lay with features := lay.features.set i { f with properties := p2 } })

/-- The session store after the edit handler runs. -/
def edit_state (m : LayerMap) (k : Value) (i : ℕ)
    (t fe resp prov cant imp enl des : Chars) : LayerMap :=
  (edit_submit m k i t fe resp prov cant imp enl des).getD m

/-- The move-by-click handler (app.py line 440): replace the geometry
coordinates of the targeted feature with [float(lon), float(lat)]. -/
def move_click (m : LayerMap) (k : Value) (i : ℕ) (lon lat : ℚ) : Option LayerMap :=
  match lookupKey m k with
  | none => none
  | some lay =>
      match lay.features[i]? with
      | none => none
      | some f =>
          let f2 : Feature := { f with geometry := { f.geometry with coordinates := (lon, lat) } }
          some (setKey m k { lay with features := lay.features.set i f2 })

/-- The session store after the move handler runs. -/
def move_state (m : LayerMap) (k : Value) (i : ℕ) (lon lat : ℚ) : LayerMap :=
  (move_click m k i lon lat).getD m

/-- The confirm-add button handler (app.py lines 344-362): build the property
bag from the form fields (description truncated to 240 characters by the
text_area slice before stripping), then append the built feature to the
active layer.  freshId is the uuid token of line 350, builderId the one
_build_feature would draw. -/
def confirm_add (m : LayerMap) (freshId builderId : Chars) (layer_active : Value)
    (titulo descInput fecha provincia canton responsable impacto enlace : Chars)
    (lat lon : ℚ) : Option LayerMap :=
  match lookupKey m layer_active with
  | none => none
  | some lay =>
      let props : Props :=
        { id := .vStr freshId
          layer := layer_active
          color := _clean_hex lay.color
          titulo := trimChars titulo
          desc := trimChars (descInput.take 240)
          fecha := fecha
          provincia := provincia
          canton := canton
          responsable := responsable
          impacto := trimChars impacto
          enlace := trimChars enlace }
      some (setKey m layer_active
        { lay with features := lay.features ++ [_build_feature builderId lon lat props] })

/-- The feature stored at position i of the named layer. -/
def feat_at (m : LayerMap) (k : Value) (i : ℕ) : Option Feature :=
  (lookupKey m k).bind (fun lay => lay.features[i]?)

/-- Length of the description of the feature at position i of the named
layer. -/
def desc_at (m : LayerMap) (k : Value) (i : ℕ) : Option ℕ :=
  (feat_at m k i).map (fun f => f.properties.desc.length)

/-- A fixed fresh-id supply for the concrete instances below; none of them
has a row with a falsy id, so it is never consulted. -/
def gen0 : ℕ → Chars := fun _ => "gen".toList

/-- Concrete layer key used by the instance stores. -/
def keyA : Value := .vStr "A".toList

/-- Concrete property bag for instance features. -/
def sampleProps (idc : Chars) : Props :=
  { id := .vStr idc
    layer := keyA
    color := "#2ca02c".toList
    titulo := []
    desc := []
    fecha := []
    provincia := []
    canton := []
    responsable := []
    impacto := []
    enlace := [] }

/-- Concrete feature for instance stores. -/
def sampleFeat (idc : Chars) (lon lat : ℚ) : Feature :=
  { ftype := "Feature".toList
    properties := sampleProps idc
    geometry := { gtype := "Point".toList, coordinates := (lon, lat) } }

/-- Concrete layer with one feature. -/
def layA : Layer :=
  { color := "#2ca02c".toList, visible := true,
    features := [sampleFeat "f1".toList 0 0] }

/-- A store with one layer holding one feature. -/
def mA : LayerMap := [(keyA, layA)]

/-- A store with one layer holding two features. -/
def mA2 : LayerMap :=
  [(keyA, { color := "#2ca02c".toList, visible := true,
            features := [sampleFeat "f1".toList 0 0, sampleFeat "f2".toList 1 1] })]

/-- A fully valid data row: 13 string cells, parseable coordinates. -/
def goodRow : List Value :=
  [.vStr "r1".toList, .vStr "A".toList, .vStr "#2ca02c".toList, .vStr "t".toList,
   .vStr "d".toList, .vStr "2024-01-01".toList, .vStr "San José".toList,
   .vStr "SJ".toList, .vStr "GL".toList, .vStr [], .vStr [],
   .vStr "9.93".toList, .vStr "-84.08".toList]

/-- A second valid data row, in another layer. -/
def goodRowB : List Value :=
  [.vStr "r2".toList, .vStr "B".toList, .vStr "#1f77b4".toList, .vStr "t2".toList,
   .vStr "d2".toList, .vStr "2024-02-02".toList, .vStr "Alajuela".toList,
   .vStr "AL".toList, .vStr "FP".toList, .vStr [], .vStr [],
   .vNum 10, .vNum (-83)]

/-- A 13-column row with a non-empty id whose latitude cell does not parse
as a number. -/
def badCoordRow : List Value :=
  [.vStr "r3".toList, .vStr "A".toList, .vStr "#2ca02c".toList, .vStr "t".toList,
   .vStr "d".toList, .vStr "2024-01-01".toList, .vStr "San José".toList,
   .vStr "SJ".toList, .vStr "GL".toList, .vStr [], .vStr [],
   .vStr "x".toList, .vStr "-84.08".toList]

/-- A malformed row with only 5 columns. -/
def shortRow : List Value :=
  [.vStr "r4".toList, .vStr "A".toList, .vStr "#111111".toList,
   .vStr "t".toList, .vStr "d".toList]

/-- Table for the round-trip counterexample: header plus one 13-column,
non-empty-id row whose latitude does not parse. -/
def cexVals1 : List (List Value) := [HEADER, badCoordRow]

/-- Table for the malformed-coordinate counterexample: one valid row and one
13-column row with an unparseable latitude. -/
def cexVals3 : List (List Value) := [HEADER, goodRow, badCoordRow]

/-- Table for the partial-data scenario: one valid row and one 5-column row. -/
def scenVals : List (List Value) := [HEADER, goodRow, shortRow]

/-- Table for the round-trip instance: two valid rows in two layers. -/
def wVals : List (List Value) := [HEADER, goodRow, goodRowB]

/-- A 241-character description used to exceed the documented bound. -/
def longDesc : Chars := List.replicate 241 'a'

/-- The four default layers created on first use (app.py lines 56-62). -/
def default_layers : LayerMap :=
  [(.vStr "Infraestructura recuperada".toList,
      { color := "#2ca02c".toList, visible := true, features := [] }),
   (.vStr "Prevención comunitaria".toList,
      { color := "#1f77b4".toList, visible := true, features := [] }),
   (.vStr "Operativos y control".toList,
      { color := "#ff7f0e".toList, visible := true, features := [] }),
   (.vStr "Gestión interinstitucional".toList,
      { color := "#9467bd".toList, visible := true, features := [] })]

/-- The confirm-add call of the bounded-description instance: a 300
character description typed into the form. -/
def c6call : Option LayerMap :=
  confirm_add mA "n1".toList "n2".toList keyA [] (List.replicate 300 'b')
    [] [] [] [] [] [] 1 2

/-- The store produced by that confirm-add call. -/
def c6m : LayerMap := c6call.getD []

/-- The head surviving a dropWhile fails the predicate. -/
theorem dropWhile_head_not (p : Char → Bool) (l : Chars) (a : Char) (t : Chars)
    (h : l.dropWhile p = a :: t) : p a = false := by
  induction l with
  | nil => simp [List.dropWhile] at h
  | cons b r ih =>
      rw [List.dropWhile_cons] at h
      by_cases hb : p b = true
      · rw [if_pos hb] at h; exact ih h
      · rw [if_neg hb] at h
        injection h with h1 h2
        subst h1
        simpa using hb

/-- Re-trimming the tail end of an already trimmed list changes nothing. -/
theorem trimR_trim (s : Chars) :
    ((trimChars s).reverse.dropWhile isWsChar).reverse = trimChars s := by
  unfold trimChars
  rw [List.reverse_reverse, List.dropWhile_idempotent]

/-- A trimmed list whose head is not whitespace is a fixed point of trim. -/
theorem trim_trim_of_head (s : Chars) (a : Char) (t : Chars)
    (hh : trimChars s = a :: t) (ha : isWsChar a = false) :
    trimChars (trimChars s) = trimChars s := by
  conv_lhs => rw [trimChars, hh, List.dropWhile_cons, if_neg (by simp [ha]), ← hh]
  exact trimR_trim s

/-- Prepending a hash to a trimmed list gives a fixed point of trim. -/
theorem trim_cons_hash (s : Chars) :
    trimChars ('#' :: trimChars s) = '#' :: trimChars s := by
  have hws : isWsChar '#' = false := by decide
  rw [trimChars, List.dropWhile_cons, if_neg (by simp [hws])]
  rw [List.reverse_cons]
  have hZ : (trimChars s).reverse = ((s.dropWhile isWsChar).reverse).dropWhile isWsChar := by
    rw [trimChars, List.reverse_reverse]
  cases hc : ((s.dropWhile isWsChar).reverse).dropWhile isWsChar with
  | nil =>
      rw [hZ, hc]
      have ht : trimChars s = [] := by
        rw [← List.reverse_reverse (trimChars s), hZ, hc, List.reverse_nil]
      rw [ht]
      decide
  | cons c t2 =>
      have hcws : isWsChar c = false := dropWhile_head_not isWsChar _ c t2 hc
      have ht : trimChars s = (c :: t2).reverse := by
        rw [← List.reverse_reverse (trimChars s), hZ, hc]
      rw [hZ, hc, List.cons_append, List.dropWhile_cons, if_neg (by simp [hcws]), ht]
      simp

/-- A list headed by a character that is not a hex digit is never six hex
digits. -/
theorem isHex6_cons_not_hex (a : Char) (t : Chars) (ha : isHexDigitChar a = false) :
    isHex6 (a :: t) = false := by
  simp [isHex6, List.all_cons, ha]

/-- Case analysis of _clean_hex on a non-empty candidate: the result is the
hash-prefixed stripped candidate when that is six hex digits, the fallback
otherwise. -/
theorem clean_hex_eq (s : Chars) (hs : s ≠ []) :
    _clean_hex s =
      if isHex6 (stripHash (trimChars s)) then '#' :: stripHash (trimChars s)
      else FALLBACK := by
  have hne : s.isEmpty = false := by
    cases s with
    | nil => exact absurd rfl hs
    | cons a t => rfl
  have hhash : isHexDigitChar '#' = false := by decide
  simp only [_clean_hex, hne, Bool.false_eq_true, if_false]
  cases hh : (trimChars s).head? with
  | none =>
      have ht : trimChars s = [] := by
        cases htc : trimChars s with
        | nil => rfl
        | cons a t => rw [htc] at hh; simp at hh
      rw [ht]
      decide
  | some a =>
      obtain ⟨t, htc⟩ : ∃ t, trimChars s = a :: t := by
        cases htc : trimChars s with
        | nil => rw [htc] at hh; simp at hh
        | cons b t => rw [htc] at hh; simp at hh; exact ⟨t, by rw [hh]⟩
      by_cases hha : a = '#'
      · subst hha
        have hfix : trimChars ('#' :: t) = '#' :: t := by
          rw [← htc]
          exact trim_trim_of_head s '#' t htc (by decide)
        have hok : _hex_ok ('#' :: t) = isHex6 t := by
          simp [_hex_ok, hfix, isHex6_cons_not_hex '#' t hhash]
        rw [htc]
        simp [hok, stripHash, isHex6_cons_not_hex '#' t hhash]
      · have hfix := trim_cons_hash s
        rw [htc] at hfix
        have hok : _hex_ok ('#' :: a :: t) = isHex6 (a :: t) := by
          simp [_hex_ok, hfix, isHex6_cons_not_hex '#' (a :: t) hhash]
        have hbeq : ((some a == some '#') : Bool) = false := by
          simp [hha]
        rw [htc]
        simp [hok, stripHash, hbeq]

/-- C4: the color normalizer is pure and total: for every input string
(empty and absent values behave like the empty string) the result matches a
hash followed by six hex digits, and whenever the candidate after stripping
whitespace and one leading hash is not six hex digits the result is the
fixed fallback color "#1f77b4". -/
theorem clean_hex_total (s : Chars) :
    isColorCanon (_clean_hex s) = true ∧
      (isHex6 (stripHash (trimChars s)) = false → _clean_hex s = FALLBACK) := by
  by_cases hs : s = []
  · subst hs
    exact ⟨by decide, fun _ => by decide⟩
  · rw [clean_hex_eq s hs]
    constructor
    · by_cases hx : isHex6 (stripHash (trimChars s)) = true
      · rw [if_pos hx]
        simp [isColorCanon, hx]
      · rw [if_neg hx]
        decide
    · intro hfalse
      rw [if_neg (by simp [hfalse])]

/-- C4 instance: a concrete non-hex candidate is sent to the fallback. -/
theorem clean_hex_total_inst :
    isHex6 (stripHash (trimChars "zz1234".toList)) = false ∧
      _clean_hex "zz1234".toList = FALLBACK :=
  ⟨by decide, (clean_hex_total "zz1234".toList).2 (by decide)⟩

/-- The feature-collecting foldl with any accumulator. -/
theorem foldl_features (m : LayerMap) : ∀ acc : List Feature,
    m.foldl (fun feats kv => feats ++ kv.2.features) acc
      = acc ++ (m.map (fun kv => kv.2.features)).flatten := by
  induction m with
  | nil => intro acc; simp
  | cons kv rest ih =>
      intro acc
      simp [List.foldl_cons, ih, List.append_assoc]

/-- The flattener equals the concatenation of the per-layer feature lists. -/
theorem all_fc_eq (m : LayerMap) :
    all_features_fc m = (m.map (fun kv => kv.2.features)).flatten := by
  simpa using foldl_features m []

/-- Unfolding the flattener over the first layer. -/
theorem all_fc_cons (k : Value) (lay : Layer) (rest : LayerMap) :
    all_features_fc ((k, lay) :: rest) = lay.features ++ all_features_fc rest := by
  simp [all_fc_eq]

/-- C5: for every Layer Store the flattener is the concatenation of every
layer's feature list in store iteration order; its length is the sum of the
per-layer feature-list lengths; and it never depends on the visibility
flags (features of invisible layers are included). -/
theorem flatten_spec :
    ∀ m : LayerMap,
      all_features_fc m = (m.map (fun kv => kv.2.features)).flatten
      ∧ (all_features_fc m).length = (m.map (fun kv => kv.2.features.length)).sum
      ∧ ∀ vf : Value → Layer → Bool,
          all_features_fc (m.map (fun kv => (kv.1, { kv.2 with visible := vf kv.1 kv.2 })))
            = all_features_fc m := by
  intro m
  refine ⟨all_fc_eq m, ?_, ?_⟩
  · rw [all_fc_eq, List.length_flatten, List.map_map]
    rfl
  · intro vf
    rw [all_fc_eq, all_fc_eq, List.map_map]
    rfl

/-- Writing a key and reading it back gives the written layer. -/
theorem lookup_setKey_self (m : LayerMap) (k : Value) (v : Layer) :
    lookupKey (setKey m k v) k = some v := by
  induction m with
  | nil => simp [setKey, lookupKey]
  | cons kv rest ih =>
      obtain ⟨k1, l1⟩ := kv
      by_cases h : k1 = k
      · rw [setKey, if_pos h, lookupKey, if_pos rfl]
      · rw [setKey, if_neg h, lookupKey, if_neg h]
        exact ih

/-- Writing a key leaves every other key unchanged. -/
theorem lookup_setKey_ne (m : LayerMap) (k : Value) (v : Layer) (q : Value)
    (h : q ≠ k) : lookupKey (setKey m k v) q = lookupKey m q := by
  have hkq : ¬ k = q := fun hkq => h hkq.symm
  induction m with
  | nil => simp [setKey, lookupKey, hkq]
  | cons kv rest ih =>
      obtain ⟨k1, l1⟩ := kv
      by_cases h1 : k1 = k
      · subst h1
        rw [setKey, if_pos rfl, lookupKey, lookupKey, if_neg hkq, if_neg hkq]
      · rw [setKey, if_neg h1, lookupKey, lookupKey]
        by_cases h2 : k1 = q
        · rw [if_pos h2, if_pos h2]
        · rw [if_neg h2, if_neg h2]
          exact ih

/-- storeIds over a cons store splits into the head layer and the rest. -/
theorem storeIds_cons (k : Value) (lay : Layer) (rest : LayerMap) :
    storeIds ((k, lay) :: rest)
      = (lay.features.map (fun f => f.properties.id) : List Value) + storeIds rest := by
  rw [storeIds, storeIds, all_fc_cons, List.map_append, ← Multiset.coe_add]

/-- Appending a feature into its layer adds exactly its id to the store ids. -/
theorem storeIds_insert (m : LayerMap) (k : Value) (f : Feature) :
    storeIds (insert_feature m k f) = f.properties.id ::ₘ storeIds m := by
  induction m with
  | nil =>
      show storeIds [(k, { color := f.properties.color, visible := true, features := [f] })]
        = f.properties.id ::ₘ storeIds []
      rw [storeIds_cons]
      simp [storeIds, all_features_fc]
  | cons kv rest ih =>
      obtain ⟨k1, l1⟩ := kv
      by_cases h : k1 = k
      · rw [insert_feature, if_pos h, storeIds_cons, storeIds_cons, List.map_append,
          ← Multiset.coe_add]
        simp only [List.map_cons, List.map_nil, ← Multiset.cons_coe, Multiset.coe_nil,
          Multiset.cons_zero]
        rw [← Multiset.singleton_add]
        abel
      · rw [insert_feature, if_neg h, storeIds_cons, storeIds_cons, ih,
          ← Multiset.singleton_add, ← Multiset.singleton_add]
        abel

/-- An accepted row has exactly 13 cells. -/
theorem rowWF_len (r : List Value) (h : rowWF r = true) : r.length = 13 := by
  unfold rowWF at h
  split at h
  · rfl
  · exact absurd h (by simp)

/-- On an accepted row the loop body succeeds without consuming a fresh id,
and the produced feature keeps the id cell of the row. -/
theorem row_feature_wf (gen : ℕ → Chars) (n : ℕ) (r : List Value)
    (h : rowWF r = true) :
    ∃ lay f, row_feature gen n r = some (lay, f, n) ∧ r.head? = some f.properties.id := by
  unfold rowWF at h
  split at h
  next i lay col tit des fec pro can res imp enl la lo =>
    simp only [Bool.and_eq_true] at h
    obtain ⟨⟨⟨hid, hcol⟩, hla⟩, hlo⟩ := h
    obtain ⟨c, hc⟩ := Option.isSome_iff_exists.mp hcol
    obtain ⟨laq, hlaq⟩ := Option.isSome_iff_exists.mp hla
    obtain ⟨loq, hloq⟩ := Option.isSome_iff_exists.mp hlo
    have heq : row_feature gen n [i, lay, col, tit, des, fec, pro, can, res, imp, enl, la, lo]
        = some (lay,
            { ftype := "Feature".toList
              properties :=
                { id := i, layer := lay, color := c
                  titulo := str_or_empty tit, desc := str_or_empty des
                  fecha := str_or_empty fec, provincia := str_or_empty pro
                  canton := str_or_empty can, responsable := str_or_empty res
                  impacto := str_or_empty imp, enlace := str_or_empty enl }
              geometry := { gtype := "Point".toList, coordinates := (loq, laq) } }, n) := by
      simp only [row_feature]
      rw [hc, hlaq, hloq]
      simp [hid]
    exact ⟨lay, _, heq, by simp⟩
  next => exact absurd h (by simp)

/-- Invariant of the app_from_rows loop: when every remaining row is either
short (skipped) or fully accepted, the loop succeeds and the final store
ids are the accumulator ids plus the id cells of the accepted rows. -/
theorem loop_ids (gen : ℕ → Chars) :
    ∀ (rows : List (List Value)) (n : ℕ) (acc : LayerMap),
      (∀ r ∈ rows, r.length < 13 ∨ rowWF r = true) →
      ∃ m, app_from_rows_loop gen rows n acc = some m ∧
        storeIds m = storeIds acc
          + (((rows.filter (fun r => rowWF r)).filterMap List.head? : List Value) : Multiset Value) := by
  intro rows
  induction rows with
  | nil =>
      intro n acc h
      exact ⟨acc, rfl, by simp⟩
  | cons r rest ih =>
      intro n acc h
      have hr := h r (List.mem_cons_self r rest)
      have hrest : ∀ r2 ∈ rest, r2.length < 13 ∨ rowWF r2 = true :=
        fun r2 hr2 => h r2 (List.mem_cons_of_mem r hr2)
      by_cases hwf : rowWF r = true
      · have hlen := rowWF_len r hwf
        have hnlt : ¬ r.length < 13 := by omega
        obtain ⟨lay, f, heq, hid⟩ := row_feature_wf gen n r hwf
        obtain ⟨m, hm, hids⟩ := ih n (insert_feature acc lay f) hrest
        refine ⟨m, ?_, ?_⟩
        · rw [app_from_rows_loop, if_neg hnlt, heq]
          exact hm
        · rw [hids, storeIds_insert, List.filter_cons_of_pos hwf, List.filterMap_cons, hid,
            ← Multiset.cons_coe, Multiset.cons_add, ← Multiset.singleton_add,
            ← Multiset.singleton_add]
          abel
      · have hlen : r.length < 13 := by
          rcases hr with h1 | h1
          · exact h1
          · exact absurd h1 hwf
        obtain ⟨m, hm, hids⟩ := ih n acc hrest
        refine ⟨m, ?_, ?_⟩
        · rw [app_from_rows_loop, if_pos hlen]
          exact hm
        · rw [hids, List.filter_cons_of_neg (by simpa using hwf)]

/-- The id column of an exported table is exactly the ids of the store. -/
theorem sheet_ids_export (m : LayerMap) :
    sheet_ids (rows_from_app m) = storeIds m := by
  rw [sheet_ids, rows_from_app, storeIds]
  have hdrop : (HEADER :: (all_features_fc m).map feature_row).drop 1
      = (all_features_fc m).map feature_row := rfl
  rw [hdrop, List.filterMap_map]
  have hcomp : (List.head? ∘ feature_row) = (some ∘ fun f : Feature => f.properties.id) :=
    funext (fun f => rfl)
  rw [hcomp, List.filterMap_eq_map]

set_option maxRecDepth 8000 in
/-- C1 counterexample: the well-formedness stated by the claim (13 columns,
non-empty id) holds for this table, yet app_from_rows raises on the
unparseable latitude cell, so the import-then-export round trip does not
reproduce the input ids: import fails outright. -/
theorem roundtrip_claim_cex :
    (∀ r ∈ cexVals1.drop 1, rowWF_claim r = true)
    ∧ (app_from_rows gen0 cexVals1).map (fun m => sheet_ids (rows_from_app m))
        ≠ some (sheet_ids cexVals1) := by
  constructor
  · decide
  · decide

/-- C1 amended: for a table whose data rows all have 13 cells, a non-empty
id, an acceptable color cell and parseable coordinates, reloading with
app_from_rows and exporting with rows_from_app reproduces exactly the input
multiset of features identified by id. -/
theorem roundtrip_ids_amended (gen : ℕ → Chars) (values : List (List Value))
    (h : ∀ r ∈ values.drop 1, rowWF r = true) :
    (app_from_rows gen values).map (fun m => sheet_ids (rows_from_app m))
      = some (sheet_ids values) := by
  obtain ⟨m, hm, hids⟩ := loop_ids gen (values.drop 1) 0 []
    (fun r hr => Or.inr (h r hr))
  rw [app_from_rows, hm, Option.map_some']
  rw [sheet_ids_export, hids, List.filter_eq_self.mpr h]
  rw [show storeIds [] = 0 from rfl, zero_add]
  rfl

set_option maxRecDepth 8000 in
/-- C1 amended instance: a concrete two-row table round-trips. -/
theorem roundtrip_ids_amended_inst :
    (∀ r ∈ wVals.drop 1, rowWF r = true)
    ∧ (app_from_rows gen0 wVals).map (fun m => sheet_ids (rows_from_app m))
        = some (sheet_ids wVals) :=
  ⟨by decide, roundtrip_ids_amended gen0 wVals (by decide)⟩

/-- Taking heads of a list of non-empty lists loses nothing. -/
theorem filterMap_head_len (l : List (List Value)) (h : ∀ r ∈ l, r ≠ []) :
    (l.filterMap List.head?).length = l.length := by
  induction l with
  | nil => rfl
  | cons r rest ih =>
      have hr := h r (List.mem_cons_self r rest)
      cases r with
      | nil => exact absurd rfl hr
      | cons a t =>
          rw [List.filterMap_cons, List.head?_cons, List.length_cons,
            ih (fun r2 hr2 => h r2 (List.mem_cons_of_mem _ hr2))]
          rfl

set_option maxRecDepth 8000 in
/-- C3 counterexample: against a table with one fully valid row and one
13-column row whose latitude cell cannot be parsed, the rebuild raises
instead of skipping the malformed row, the valid row is not loaded, and the
store keeps its previous value. -/
theorem badcoord_abort_cex :
    app_from_rows gen0 cexVals3 = none
    ∧ load_sheets gen0 default_layers cexVals3 = default_layers
    ∧ (app_from_rows gen0 cexVals3).map (fun m => (all_features_fc m).length) ≠ some 1 := by
  refine ⟨by decide, by decide, by decide⟩

/-- C3 amended: when every data row is either shorter than 13 cells or fully
acceptable, the rebuild succeeds, each short row is skipped individually,
and the resulting store holds exactly one feature per accepted row. -/
theorem short_rows_skipped (gen : ℕ → Chars) (values : List (List Value))
    (h : ∀ r ∈ values.drop 1, r.length < 13 ∨ rowWF r = true) :
    (app_from_rows gen values).map (fun m => (all_features_fc m).length)
      = some (((values.drop 1).filter (fun r => rowWF r)).length) := by
  obtain ⟨m, hm, hids⟩ := loop_ids gen (values.drop 1) 0 [] h
  rw [app_from_rows, hm, Option.map_some']
  have hcard := congrArg Multiset.card hids
  rw [show storeIds [] = 0 from rfl, zero_add, Multiset.coe_card] at hcard
  rw [storeIds, Multiset.coe_card, List.length_map] at hcard
  rw [hcard, filterMap_head_len]
  intro r hr
  have hwf : rowWF r = true := List.of_mem_filter hr
  have := rowWF_len r hwf
  intro hnil
  rw [hnil] at this
  exact absurd this (by decide)

set_option maxRecDepth 8000 in
/-- C3 amended instance: the table with one valid row and one 5-column row
reloads without an exception into a store with exactly one feature. -/
theorem short_rows_skipped_inst :
    (∀ r ∈ scenVals.drop 1, r.length < 13 ∨ rowWF r = true)
    ∧ (app_from_rows gen0 scenVals).map (fun m => (all_features_fc m).length)
        = some (((scenVals.drop 1).filter (fun r => rowWF r)).length)
    ∧ ((scenVals.drop 1).filter (fun r => rowWF r)).length = 1 :=
  ⟨by decide, short_rows_skipped gen0 scenVals (by decide), by decide⟩

/-- C7: pulling from a table that is empty or holds only the header row
leaves the Layer Store exactly as it was. -/
theorem pull_replace_empty_noop (gen : ℕ → Chars) (m : LayerMap)
    (values : List (List Value)) (h : values.length ≤ 1) :
    load_sheets gen m values = m := by
  rw [load_sheets, if_neg (by omega)]

/-- C7 instance: a header-only table changes nothing. -/
theorem pull_replace_empty_noop_inst :
    [HEADER].length ≤ 1 ∧ load_sheets gen0 default_layers [HEADER] = default_layers :=
  ⟨by decide, pull_replace_empty_noop gen0 default_layers [HEADER] (by decide)⟩

/-- C10: the rebuild from rows is all-or-nothing: the new layer mapping is
fully constructed before it is assigned, so whenever any row raises partway
through, the in-memory store is left completely unchanged. -/
theorem reload_all_or_nothing (gen : ℕ → Chars) (m : LayerMap)
    (values : List (List Value)) (h : app_from_rows gen values = none) :
    load_sheets gen m values = m := by
  rw [load_sheets]
  split
  · rw [h]
  · rfl

set_option maxRecDepth 8000 in
/-- C10 instance: a table whose single data row has an unparseable latitude
raises, and a concrete nonempty store survives untouched. -/
theorem reload_all_or_nothing_inst :
    app_from_rows gen0 cexVals1 = none ∧ load_sheets gen0 mA2 cexVals1 = mA2 :=
  ⟨by decide, reload_all_or_nothing gen0 mA2 cexVals1 (by decide)⟩

/-- Python pop raises IndexError whenever the (negatively adjusted) index is
still outside the list. -/
theorem list_pop_none (l : List Feature) (i : ℤ)
    (h : (l.length : ℤ) ≤ i ∨ i < -(l.length : ℤ)) : list_pop l i = none := by
  have hJ : ¬ (0 ≤ (if i < 0 then i + (l.length : ℤ) else i) ∧
      (if i < 0 then i + (l.length : ℤ) else i) < (l.length : ℤ)) := by
    by_cases hi : i < 0
    · rw [if_pos hi]; omega
    · rw [if_neg hi]; omega
  rw [list_pop, dif_neg hJ]

set_option maxRecDepth 8000 in
/-- C2 counterexample: deleting at index -1, which is outside [0, length),
does not fail and does not leave the store unchanged: Python pop counts a
negative index from the end, so the last feature of the two-feature layer is
removed without any reported error. -/
theorem delete_negative_index_cex :
    btn_del mA2 keyA (-1) = some mA ∧ mA ≠ mA2 :=
  ⟨by decide, by decide⟩

/-- C2 amended: for an index at or beyond the feature-list length, or below
the negative length, the delete handler raises an uncaught IndexError (whose
message names neither the index nor the valid range) and the store is left
unchanged; a negative index in [-length, -1] instead deletes from the end
(the number_input widget separately clamps typed indices to [0, length-1]). -/
theorem delete_oob_amended (m : LayerMap) (k : Value) (lay : Layer) (i : ℤ)
    (hk : lookupKey m k = some lay)
    (hi : (lay.features.length : ℤ) ≤ i ∨ i < -(lay.features.length : ℤ)) :
    btn_del m k i = none ∧ btn_del_state m k i = m := by
  have hp := list_pop_none lay.features i hi
  have h1 : btn_del m k i = none := by
    simp only [btn_del, hk, hp]
  refine ⟨h1, ?_⟩
  rw [btn_del_state, h1]
  rfl

/-- C2 amended instance: index 5 on a one-feature layer raises and leaves
the store unchanged. -/
theorem delete_oob_amended_inst :
    lookupKey mA keyA = some layA
    ∧ ((layA.features.length : ℤ) ≤ 5 ∨ (5 : ℤ) < -(layA.features.length : ℤ))
    ∧ btn_del mA keyA 5 = none ∧ btn_del_state mA keyA 5 = mA :=
  ⟨by decide, by decide,
    (delete_oob_amended mA keyA layA 5 (by decide) (by decide)).1,
    (delete_oob_amended mA keyA layA 5 (by decide) (by decide)).2⟩

/-- dropWhile never lengthens a list. -/
theorem dropWhile_len_le (p : Char → Bool) (l : Chars) :
    (l.dropWhile p).length ≤ l.length := by
  induction l with
  | nil => simp
  | cons a t ih =>
      rw [List.dropWhile_cons]
      by_cases h : p a = true
      · rw [if_pos h]
        exact Nat.le_succ_of_le ih
      · rw [if_neg h]

/-- Stripping never lengthens a string. -/
theorem trim_len_le (l : Chars) : (trimChars l).length ≤ l.length := by
  rw [trimChars, List.length_reverse]
  calc (((l.dropWhile isWsChar).reverse).dropWhile isWsChar).length
      ≤ ((l.dropWhile isWsChar).reverse).length := dropWhile_len_le _ _
    _ = (l.dropWhile isWsChar).length := List.length_reverse _
    _ ≤ l.length := dropWhile_len_le _ _

/-- The builder never touches the description of the given property bag. -/
theorem build_feature_desc (bid : Chars) (lon lat : ℚ) (props : Props) :
    (_build_feature bid lon lat props).properties.desc = props.desc := by
  rw [_build_feature]
  by_cases h : props.id.truthy = true
  · rw [if_pos h]
  · rw [if_neg h]

/-- Membership after appending one feature to an existing layer: every
feature of the new store was already present or is the appended one. -/
theorem mem_all_fc_set_append (k : Value) (lay : Layer) (g f : Feature) :
    ∀ m : LayerMap, lookupKey m k = some lay →
      f ∈ all_features_fc (setKey m k { lay with features := lay.features ++ [g] }) →
      f ∈ all_features_fc m ∨ f = g := by
  intro m
  induction m with
  | nil =>
      intro hk _
      rw [lookupKey] at hk
      exact absurd hk (by simp)
  | cons kv rest ih =>
      intro hk hmem
      obtain ⟨k1, l1⟩ := kv
      by_cases h : k1 = k
      · rw [lookupKey, if_pos h] at hk
        injection hk with hk1
        rw [setKey, if_pos h, all_fc_cons] at hmem
        rw [all_fc_cons]
        rcases List.mem_append.mp hmem with h1 | h1
        · rcases List.mem_append.mp h1 with h2 | h2
          · left
            exact List.mem_append.mpr (Or.inl (by rw [hk1]; exact h2))
          · right
            simpa using h2
        · left
          exact List.mem_append.mpr (Or.inr h1)
      · rw [lookupKey, if_neg h] at hk
        rw [setKey, if_neg h, all_fc_cons] at hmem
        rw [all_fc_cons]
        rcases List.mem_append.mp hmem with h1 | h1
        · left
          exact List.mem_append.mpr (Or.inl h1)
        · rcases ih hk h1 with h2 | h2
          · left
            exact List.mem_append.mpr (Or.inr h2)
          · right
            exact h2

set_option maxRecDepth 8000 in
/-- C6 counterexample: starting from a store whose feature satisfies the
bound, one edit-form submit with a 241-character description leaves a stored
description of length 241, violating the 240-character invariant. -/
theorem desc_edit_unbounded_cex :
    desc_at (edit_state mA keyA 0 [] [] [] [] [] [] [] longDesc) keyA 0 = some 241
    ∧ 240 < 241 :=
  ⟨by decide, by decide⟩

/-- C6 amended: only the map-form append path truncates the description (to
240 characters before stripping): every feature of the store after a
confirm-add was either already present or carries a description of at most
240 characters.  The edit form and the row reload store descriptions without
truncation. -/
theorem form_desc_bounded (m : LayerMap) (id1 id2 : Chars) (k : Value)
    (tt dd fe pr ca re im en : Chars) (lat lon : ℚ) (m2 : LayerMap) (f : Feature)
    (hc : confirm_add m id1 id2 k tt dd fe pr ca re im en lat lon = some m2)
    (hf : f ∈ all_features_fc m2) :
    f ∈ all_features_fc m ∨ f.properties.desc.length ≤ 240 := by
  cases hlk : lookupKey m k with
  | none =>
      rw [confirm_add, hlk] at hc
      exact absurd hc (by simp)
  | some lay =>
      simp only [confirm_add, hlk, Option.some.injEq] at hc
      subst hc
      rcases mem_all_fc_set_append k lay _ f m hlk hf with h | h
      · exact Or.inl h
      · right
        rw [h, build_feature_desc]
        show (trimChars (dd.take 240)).length ≤ 240
        calc (trimChars (dd.take 240)).length
            ≤ (dd.take 240).length := trim_len_le _
          _ ≤ 240 := by
              rw [List.length_take]
              exact min_le_left _ _

set_option maxRecDepth 8000 in
/-- C6 amended instance: after a confirm-add with a 300-character typed
description, the pre-existing feature of the store is untouched and in
particular satisfies the disjunction of the amended statement. -/
theorem form_desc_bounded_inst :
    c6call = some c6m
    ∧ sampleFeat "f1".toList 0 0 ∈ all_features_fc c6m
    ∧ (sampleFeat "f1".toList 0 0 ∈ all_features_fc mA
        ∨ (sampleFeat "f1".toList 0 0).properties.desc.length ≤ 240) :=
  ⟨by decide, by decide,
    form_desc_bounded mA "n1".toList "n2".toList keyA [] (List.replicate 300 'b')
      [] [] [] [] [] [] 1 2 c6m (sampleFeat "f1".toList 0 0) (by decide) (by decide)⟩

/-- C8: for every layer, in-range index and new coordinate pair, the move
handler replaces only the coordinates of the targeted feature: the new
feature is the old one with coordinates swapped (so its property bag,
including id and layer, is identical), every other position of the layer is
unchanged, every other layer is unchanged, and the layer's color, visibility
and feature count are preserved. -/
theorem move_feature_frame (m : LayerMap) (k : Value) (lay : Layer) (f : Feature)
    (i : ℕ) (lon lat : ℚ)
    (hk : lookupKey m k = some lay) (hf : lay.features[i]? = some f) :
    feat_at (move_state m k i lon lat) k i
        = some { f with geometry := { f.geometry with coordinates := (lon, lat) } }
      ∧ (feat_at (move_state m k i lon lat) k i).map (fun g => g.properties)
          = some f.properties
      ∧ (∀ j : ℕ, j ≠ i → feat_at (move_state m k i lon lat) k j = feat_at m k j)
      ∧ (∀ q : Value, q ≠ k → lookupKey (move_state m k i lon lat) q = lookupKey m q)
      ∧ (lookupKey (move_state m k i lon lat) k).map Layer.color = some lay.color
      ∧ (lookupKey (move_state m k i lon lat) k).map Layer.visible = some lay.visible
      ∧ (lookupKey (move_state m k i lon lat) k).map (fun l => l.features.length)
          = some lay.features.length := by
  have hilt : i < lay.features.length := by
    by_contra hcon
    rw [List.getElem?_eq_none (by omega)] at hf
    exact absurd hf (by simp)
  have hstate : move_state m k i lon lat
      = setKey m k { lay with features := lay.features.set i { f with geometry := { f.geometry with coordinates := (lon, lat) } } } := by
    simp only [move_state, move_click, hk, hf, Option.getD_some]
  have hlook : lookupKey (move_state m k i lon lat) k
      = some { lay with features := lay.features.set i { f with geometry := { f.geometry with coordinates := (lon, lat) } } } := by
    rw [hstate, lookup_setKey_self]
  refine ⟨?_, ?_, ?_, ?_, ?_, ?_, ?_⟩
  · rw [feat_at, hlook, Option.some_bind]
    rw [List.getElem?_set, if_pos rfl, if_pos hilt]
  · rw [feat_at, hlook, Option.some_bind]
    rw [List.getElem?_set, if_pos rfl, if_pos hilt]
    rfl
  · intro j hj
    rw [feat_at, feat_at, hlook, hk, Option.some_bind, Option.some_bind]
    rw [List.getElem?_set, if_neg (fun hij => hj hij.symm)]
  · intro q hq
    rw [hstate]
    exact lookup_setKey_ne m k _ q hq
  · rw [hlook]
    rfl
  · rw [hlook]
    rfl
  · rw [hlook]
    simp [List.length_set]

/-- C8 instance: moving the only feature of the sample store to (5, 7)
preserves its property bag exactly. -/
theorem move_feature_frame_inst :
    lookupKey mA keyA = some layA
    ∧ layA.features[0]? = some (sampleFeat "f1".toList 0 0)
    ∧ (feat_at (move_state mA keyA 0 5 7) keyA 0).map (fun g => g.properties)
        = some (sampleFeat "f1".toList 0 0).properties :=
  ⟨by decide, by decide,
    (move_feature_frame mA keyA layA (sampleFeat "f1".toList 0 0) 0 5 7
      (by decide) (by decide)).2.1⟩

/-- C9: every feature produced by the builder carries geometry type "Point"
and the coordinate pair with longitude first; in particular building at
longitude -84.08 and latitude 9.93 stores exactly (-84.08, 9.93). -/
theorem build_feature_geometry :
    (∀ (bid : Chars) (lon lat : ℚ) (p : Props),
        (_build_feature bid lon lat p).geometry.gtype = "Point".toList
        ∧ (_build_feature bid lon lat p).geometry.coordinates = (lon, lat))
    ∧ (_build_feature "n".toList (-8408 / 100) (993 / 100)
          (sampleProps [])).geometry.coordinates = (-8408 / 100, 993 / 100) := by
  exact ⟨fun bid lon lat p => ⟨rfl, rfl⟩, rfl⟩
